import Mathlib

/-!
# Verification of the mycelium orchestrator and seedbox

A shallow embedding of `src/code/main.py` (the `Orchestrator`: update
monitor, heartbeat, seedbox bridge, signal handling) and
`src/code/modules/seedbox.py` (the `Seedbox`: torrent creation, content
loading, session registration, status reporting, the seeding loop).

File names are modelled as their character sequences (`List Char`), so
that the string operations of the source (`str.endswith('.torrent')`,
glob's hidden-file rule, `str(file_path) + ".torrent"`) are translated
directly.

The file is laid out as definitions first — the embedding of
`seedbox.py`, then of `main.py`'s event loop, then concrete inputs used
by witnesses — followed by the helper lemmas and the theorems about the
claims.
-/

namespace Mycelium

/-- A file or directory name: the character sequence of the Python string. -/
abbrev Name := List Char

/-- The characters of the literal `".torrent"` used by
`seedbox.py` both when filtering (`f.endswith('.torrent')`) and when
synthesizing the companion metadata file name. -/
def torrentSuffix : Name := ".torrent".toList

/-- Python `f.endswith('.torrent')` (seedbox.py line 97). -/
def endsWithTorrent (n : Name) : Bool := torrentSuffix.isSuffixOf n

/-- Python `glob` does not match entries whose basename starts with a dot:
a name is hidden when its first character is `'.'`. -/
def isHidden (n : Name) : Bool := n.head? == some '.'

/-- `str(file_path) + ".torrent"` (seedbox.py line 51): the companion
metadata file name of a content file. -/
def mkTorrentName (n : Name) : Name := n ++ torrentSuffix

namespace Seedbox

/-- The part of the filesystem `Seedbox` observes: whether the content
directory exists (`self.content_dir.exists()`, seedbox.py line 93) and
the top-level entry names inside it (what `glob.glob(content_dir / "*")`
enumerates, before glob's hidden-file rule; torrent files written by
`_create_torrent` appear here). -/
structure FS where
  contentDirExists : Bool
  entries : List Name
deriving DecidableEq, Repr

/-- `glob.glob(str(self.content_dir / "*"))` (seedbox.py line 96): the
top-level entries, excluding hidden names (glob's `*` never matches a
leading dot). -/
def globStar (fs : FS) : List Name :=
  fs.entries.filter (fun n => !(isHidden n))

/-- `[f for f in files if not f.endswith('.torrent')]` (seedbox.py
line 97) applied to the glob result: the files selected for seeding. -/
def eligibleFiles (fs : FS) : List Name :=
  (globStar fs).filter (fun n => !(endsWithTorrent n))

/-- The eligible-file set as the spec's words describe it — "exactly the
top-level entries of the content directory whose names do not end in
`.torrent`" — written only to be compared with `eligibleFiles`, the
definition translated from the source. -/
def specEligibleFiles (fs : FS) : List Name :=
  fs.entries.filter (fun n => !(endsWithTorrent n))

/-- `Seedbox._load_content_files` (seedbox.py lines 86-103): fail when
the directory is missing, glob and filter, fail when nothing is left.
Error values are the `SeedboxError` message characters. -/
def loadContentFiles (fs : FS) : Except (List Char) (List Name) :=
  if fs.contentDirExists = false then
    .error "Content directory not found".toList
  else if eligibleFiles fs = [] then
    .error "No files found".toList
  else
    .ok (eligibleFiles fs)

/-- Result of `Seedbox._create_torrent` (seedbox.py lines 41-73): the
returned torrent path, the filesystem afterwards, and whether a new
torrent file was generated (false when the companion file already
existed and was reused). -/
structure CreateResult where
  path : Name
  fs : FS
  generated : Bool
deriving DecidableEq, Repr

/-- `Seedbox._create_torrent` (seedbox.py lines 41-73): if the companion
`.torrent` file exists, return its path untouched; otherwise generate it
(modelled as appending the new entry to the directory) and return it. -/
def createTorrent (fs : FS) (file : Name) : CreateResult :=
  let t := mkTorrentName file
  if t ∈ fs.entries then ⟨t, fs, false⟩
  else ⟨t, { fs with entries := fs.entries ++ [t] }, true⟩

/-- Result of `Seedbox._add_torrents`: the filesystem afterwards, the
handles list (`self.handles`; a handle is identified by its file name,
matching the `(handle, file_path.name)` pairs of seedbox.py line 120),
and how many torrent files were newly generated along the way. -/
structure AddResult where
  fs : FS
  handles : List Name
  created : Nat
deriving DecidableEq, Repr

/-- `Seedbox._add_torrents` (seedbox.py lines 105-123): for each file,
create (or reuse) its torrent, then register it with the session.  The
fallible libtorrent calls (`lt.torrent_info`, `session.add_torrent`) are
modelled by the oracle `regOk`; when registration fails the exception is
logged and the file is skipped (`except Exception` inside the loop), so
no handle is appended for it. -/
def addTorrents (regOk : Name → Bool) : FS → List Name → AddResult
  | fs, [] => ⟨fs, [], 0⟩
  | fs, f :: rest =>
    let c := createTorrent fs f
    let tail := addTorrents regOk c.fs rest
    if regOk f then
      ⟨tail.fs, f :: tail.handles, (if c.generated then 1 else 0) + tail.created⟩
    else
      ⟨tail.fs, tail.handles, (if c.generated then 1 else 0) + tail.created⟩

/-- The dictionary returned by `Seedbox.get_status` (seedbox.py lines
125-148). -/
structure SeedStatus where
  active : Bool
  torrents : Nat
  peers : Nat
  uploaded : Nat
deriving DecidableEq, Repr

/-- `Seedbox.get_status` (seedbox.py lines 125-148): inactive zeros when
no handles, otherwise active with the handle count and the per-handle
peer/upload numbers (read from libtorrent, modelled by the oracle
`hstat`) summed. -/
def getStatus (hstat : Name → Nat × Nat) (handles : List Name) : SeedStatus :=
  if handles.isEmpty then ⟨false, 0, 0, 0⟩
  else
    ⟨true, handles.length,
      (handles.map (fun h => (hstat h).1)).sum,
      (handles.map (fun h => (hstat h).2)).sum⟩

/-- What eventually reaches the `while True` status loop of
`seed_content` (seedbox.py lines 174-181): the loop has no normal exit,
so a run of it ends only when an exception is delivered to the worker
thread — either a `KeyboardInterrupt` or some `Exception` with a
message. -/
inductive LoopExc
  | keyboardInterrupt
  | exc (msg : List Char)
deriving DecidableEq, Repr

/-- The observable outcome of one `Seedbox.seed_content` call. -/
structure SeedOutcome where
  /-- filesystem after the call (torrent files written) -/
  fs : FS
  /-- whether `_initialize_session` ran: a libtorrent session was created
  and bound to the configured port range (seedbox.py lines 75-84) -/
  sessionInitialized : Bool
  /-- `self.handles` after setup -/
  handles : List Name
  /-- number of torrent files newly generated -/
  created : Nat
  /-- whether the `while True` status loop was entered -/
  reachedLoop : Bool
  /-- the first status snapshot logged inside the loop, if reached -/
  firstStatus : Option SeedStatus
  /-- `some msg` when the call raised `SeedboxError msg`, `none` when it
  returned normally -/
  raised : Option (List Char)
deriving DecidableEq, Repr

/-- The `except Exception` clause of `seed_content` (seedbox.py lines
185-187): any `Exception` `e` escaping the try block is re-raised as
`SeedboxError("Seeding failed: " + str(e))`. -/
def wrapMsg (m : List Char) : List Char := "Seeding failed: ".toList ++ m

/-- `Seedbox.seed_content` (seedbox.py lines 150-190), translated
step by step:
the session is initialized FIRST (line 165, so `sessionInitialized` is
true in every outcome), then content files are loaded (line 166) — a
missing directory or empty eligible list raises `SeedboxError` here —
then torrents are added (line 167), then `SeedboxError("No torrents
loaded")` is raised when no handle registered (lines 169-170), and only
then the `while True` status loop starts.  Every `Exception` raised in
the try block (including the `SeedboxError`s above) is caught by
`except Exception` and re-raised wrapped by `wrapMsg`; a
`KeyboardInterrupt` delivered to the loop is caught by
`except KeyboardInterrupt` and swallowed, so the call returns
normally. -/
def seedContent (regOk : Name → Bool) (loopExc : LoopExc)
    (hstat : Name → Nat × Nat) (fs : FS) : SeedOutcome :=
  match loadContentFiles fs with
  | .error m => ⟨fs, true, [], 0, false, none, some (wrapMsg m)⟩
  | .ok files =>
    let a := addTorrents regOk fs files
    if a.handles.isEmpty then
      ⟨a.fs, true, a.handles, a.created, false, none,
        some (wrapMsg "No torrents loaded".toList)⟩
    else
      let st := getStatus hstat a.handles
      match loopExc with
      | .keyboardInterrupt =>
        ⟨a.fs, true, a.handles, a.created, true, some st, none⟩
      | .exc m =>
        ⟨a.fs, true, a.handles, a.created, true, some st, some (wrapMsg m)⟩

/-- Outcome of the bridge task `Orchestrator.run_seedbox` (main.py lines
72-84) around one `seed_content` call. -/
structure BridgeResult where
  /-- whether an exception escaped the bridge task into the supervisor -/
  raisedToSupervisor : Bool
  /-- the error message logged by the bridge, when `seed_content`
  raised -/
  loggedMsg : Option (List Char)
deriving DecidableEq, Repr

/-- `Orchestrator.run_seedbox` (main.py lines 72-84): awaits
`seed_content` on the executor thread; `except SeedboxError` logs the
error, and `except Exception` logs any other error — neither re-raises,
so the bridge task always completes without propagating into the
supervisor's gather. -/
def runSeedbox (o : SeedOutcome) : BridgeResult :=
  ⟨false, o.raised⟩

end Seedbox

namespace Orchestrator

/-- Modelled from the spec: `config.py` is not under `src/`.  Only the
constants `main.py` reads are needed: the poll, heartbeat and status
intervals (in scheduler ticks) and the distinguished restart exit code
(spec section 6: exit codes SUCCESS, FAILURE, RESTART). -/
structure Cfg where
  updateInterval : Nat
  heartbeatInterval : Nat
  statusInterval : Nat
  exitRestart : Nat
deriving DecidableEq, Repr

/-- What one monitor iteration observes from `CodeSync` (main.py lines
56-58): `has_updates()` returns false, or returns true and
`pull_updates()` succeeds, or one of the two raises `CodeSyncError`. -/
inductive PollOutcome
  | noUpdate
  | updatePullOk
  | hasUpdatesErr
  | pullErr
deriving DecidableEq, Repr

/-- Whether the iteration ended in a `CodeSyncError` from either call. -/
def PollOutcome.isSyncErr : PollOutcome → Bool
  | .hasUpdatesErr => true
  | .pullErr => true
  | _ => false

/-- State of one cooperative loop: at its `while` test, inside an
`asyncio.sleep`/`time.sleep` with `r` ticks remaining, or completed. -/
inductive TaskSt
  | top
  | sleeping (r : Nat)
  | done
deriving DecidableEq, Repr

/-- Global state of the orchestrator process: the `running` flag, the
process exit code once `sys.exit` fired, the three loops
(`check_for_updates`, `heartbeat`, and the seedbox status loop running
on the executor thread), plus observation counters: `has_updates` calls,
heartbeat log lines, status-loop iterations, and logged
`CodeSyncError`s. -/
structure Sys where
  running : Bool
  /-- `some c` once the process has actually terminated with exit
  code `c` (the `SystemExit` reached the interpreter) -/
  exited : Option Nat
  /-- `some c` while a `SystemExit c` (raised by
  `sys.exit(Config.EXIT_RESTART)`, main.py line 60) is unwinding
  through the scheduler and `run()`'s `finally` — the process has not
  terminated yet -/
  pendingExit : Option Nat
  mon : TaskSt
  hb : TaskSt
  seed : TaskSt
  polls : Nat
  beats : Nat
  statusTicks : Nat
  syncErrorsLogged : Nat
deriving DecidableEq, Repr

/-- Scheduler events: one loop gets to run from its `while` test
(`monStep`, `hbStep`, `seedStep`), one global time tick advances every
in-progress sleep (`tick`), a SIGTERM/SIGINT arrives (`signal`), the
worker call `seed_content` returns or raises so the bridge task
completes (`seedDone`), or the cleanup triggered by a pending
`SystemExit` makes progress (`shutdownStep`: asyncio's task
cancellation plus `run()`'s `finally`, main.py lines 101-109). -/
inductive Ev
  | monStep
  | hbStep
  | seedStep
  | tick
  | signal
  | seedDone
  | shutdownStep
deriving DecidableEq, Repr

/-- One time tick of a sleeping loop: the sleep with `r` ticks left has
`r - 1` left, and the loop returns to its `while` test when it runs
out. -/
def tickTask : TaskSt → TaskSt
  | .sleeping r => if r ≤ 1 then .top else .sleeping (r - 1)
  | t => t

/-- Small-step transition of the orchestrator, given the configuration
and an oracle assigning the `CodeSync` outcome to each poll (the `n`-th
`has_updates` call observes `oracle n`).

* `monStep` is `check_for_updates` (main.py lines 52-64) reaching its
  `while self.running` test: when false the coroutine ends; otherwise it
  polls — `CodeSyncError` from either call is caught and logged and the
  loop falls through to `await asyncio.sleep(UPDATE_CHECK_INTERVAL)`,
  no update likewise sleeps, and a successful pull runs
  `sys.exit(Config.EXIT_RESTART)` — this raises `SystemExit`, which the
  `except CodeSyncError` clause does not catch: the monitor coroutine
  terminates and the `SystemExit` becomes pending (`pendingExit`).  The
  process has NOT exited at this point.
* `shutdownStep` is the cleanup the pending `SystemExit` triggers:
  asyncio re-raises it out of the event loop, `asyncio.run`'s cleanup
  cancels the tasks and `run()`'s `finally` (main.py lines 105-109)
  cancels them again, awaits them (the monitor and heartbeat coroutines
  end), and then calls `executor.shutdown(wait=True)` — an unbounded
  join of the worker thread.  Only if the worker has finished
  (`seed = done`) does the join return and the `SystemExit` reach the
  interpreter, terminating the process with the pending code; otherwise
  the join blocks and nothing further happens on the cooperative side,
  while the worker thread (`seedStep`/`tick`) keeps running.
* `hbStep` is `heartbeat` (main.py lines 66-70) at its test: log one
  beat then sleep, or end when `running` is false.
* `seedStep` is the `while True` status loop of `seed_content`
  (seedbox.py lines 174-181) at its loop head, on the worker thread: it
  tests nothing, takes one status snapshot and sleeps; it is unaffected
  by the cooperative scheduler's unwind.
* `signal` is `_handle_shutdown` (main.py lines 47-50): set
  `running = False` and return; nothing else.
* `seedDone` marks `seed_content` returning or raising, which is the
  only way the worker thread finishes; it touches no other component.

Once `exited` is set the process is gone: every event is a no-op. -/
def step (cfg : Cfg) (oracle : Nat → PollOutcome) (s : Sys) : Ev → Sys :=
  fun e =>
    if s.exited.isSome then s
    else
      match e with
      | .monStep =>
        match s.mon with
        | .top =>
          if s.running then
            match oracle s.polls with
            | .noUpdate =>
              { s with polls := s.polls + 1,
                       mon := .sleeping cfg.updateInterval }
            | .updatePullOk =>
              { s with polls := s.polls + 1, mon := .done,
                       pendingExit := some cfg.exitRestart }
            | .hasUpdatesErr =>
              { s with polls := s.polls + 1,
                       mon := .sleeping cfg.updateInterval,
                       syncErrorsLogged := s.syncErrorsLogged + 1 }
            | .pullErr =>
              { s with polls := s.polls + 1,
                       mon := .sleeping cfg.updateInterval,
                       syncErrorsLogged := s.syncErrorsLogged + 1 }
          else { s with mon := .done }
        | _ => s
      | .hbStep =>
        match s.hb with
        | .top =>
          if s.running then
            { s with beats := s.beats + 1,
                     hb := .sleeping cfg.heartbeatInterval }
          else { s with hb := .done }
        | _ => s
      | .seedStep =>
        match s.seed with
        | .top =>
          { s with statusTicks := s.statusTicks + 1,
                   seed := .sleeping cfg.statusInterval }
        | _ => s
      | .tick =>
        { s with mon := tickTask s.mon, hb := tickTask s.hb,
                 seed := tickTask s.seed }
      | .signal => { s with running := false }
      | .seedDone => { s with seed := .done }
      | .shutdownStep =>
        match s.pendingExit with
        | none => s
        | some c =>
          if s.seed = .done then
            { s with mon := .done, hb := .done, exited := some c }
          else
            { s with mon := .done, hb := .done }

/-- Run a sequence of events. -/
def runEvs (cfg : Cfg) (oracle : Nat → PollOutcome) (s : Sys)
    (evs : List Ev) : Sys :=
  evs.foldl (step cfg oracle) s

/-- The state `Orchestrator.run` (main.py lines 86-99) starts the three
tasks in: `running` just set to true, every loop about to reach its
first test, nothing counted yet. -/
def initSys : Sys :=
  ⟨true, none, none, .top, .top, .top, 0, 0, 0, 0⟩

/-- The event sequence of one monitor iteration followed by its full
inter-poll sleep. -/
def monCycle (cfg : Cfg) : List Ev :=
  Ev.monStep :: List.replicate cfg.updateInterval Ev.tick

/-- `n` consecutive monitor iterations, each followed by its sleep. -/
def monCycles (cfg : Cfg) : Nat → List Ev
  | 0 => []
  | n + 1 => monCycle cfg ++ monCycles cfg n

end Orchestrator

/-! ### Concrete inputs used by witnesses and counterexamples -/

namespace Seedbox

/-- The content directory does not exist. -/
def fsMissing : FS := ⟨false, []⟩

/-- The content directory exists but is empty. -/
def fsEmpty : FS := ⟨true, []⟩

/-- Three eligible content files, no pre-existing metadata files. -/
def fsThree : FS := ⟨true, ["alpha".toList, "beta".toList, "gamma".toList]⟩

/-- A directory whose only entry is hidden. -/
def fsHidden : FS := ⟨true, [".hidden".toList]⟩

/-- A directory where the companion torrent of `"alpha"` already
exists. -/
def fsPaired : FS := ⟨true, ["alpha".toList, mkTorrentName "alpha".toList]⟩

/-- Every per-item registration succeeds. -/
def regAll : Name → Bool := fun _ => true

/-- Every per-item registration fails. -/
def regNone : Name → Bool := fun _ => false

/-- Handle status oracle reporting zero peers and zero upload. -/
def hstat0 : Name → Nat × Nat := fun _ => (0, 0)

end Seedbox

namespace Orchestrator

/-- A concrete configuration: poll every tick, heartbeat every 5 ticks,
status every 2 ticks, restart exit code 7. -/
def cfgW : Cfg := ⟨1, 5, 2, 7⟩

/-- `CodeSync` never reports updates. -/
def oracleNo : Nat → PollOutcome := fun _ => .noUpdate

/-- `CodeSync` reports an update and the pull succeeds, at every poll. -/
def oraclePull : Nat → PollOutcome := fun _ => .updatePullOk

/-- The first two polls raise `CodeSyncError`, later ones find no
update. -/
def oracleErr2 : Nat → PollOutcome :=
  fun i => if i < 2 then .hasUpdatesErr else .noUpdate

end Orchestrator

/-! ### Helper lemmas -/

theorem endsWithTorrent_mkTorrentName (n : Name) :
    endsWithTorrent (mkTorrentName n) = true := by
  simp [endsWithTorrent, mkTorrentName, List.isSuffixOf_iff_suffix]

theorem mkTorrentName_injective {a b : Name}
    (h : mkTorrentName a = mkTorrentName b) : a = b :=
  List.append_cancel_right h

namespace Seedbox

theorem mem_eligibleFiles {fs : FS} {n : Name} :
    n ∈ eligibleFiles fs ↔
      n ∈ fs.entries ∧ isHidden n = false ∧ endsWithTorrent n = false := by
  simp only [eligibleFiles, globStar, List.mem_filter, Bool.not_eq_true',
    and_assoc]

/-- When every registration fails, no handle is ever appended. -/
theorem addTorrents_all_fail {regOk : Name → Bool} :
    ∀ (files : List Name) (fs : FS),
    (∀ f ∈ files, regOk f = false) →
    (addTorrents regOk fs files).handles = [] := by
  intro files
  induction files with
  | nil => intro fs _; rfl
  | cons f rest ih =>
    intro fs h
    have hf : regOk f = false := h f (List.mem_cons_self f rest)
    simp only [addTorrents, hf]
    exact ih _ (fun g hg => h g (List.mem_cons_of_mem f hg))

/-- When every registration succeeds and no companion torrent file
pre-exists for any of the (pairwise distinct) files, every file gets a
handle, every torrent file is freshly generated, and the directory ends
up extended by exactly the synthesized torrent names. -/
theorem addTorrents_all_ok {regOk : Name → Bool} :
    ∀ (files : List Name) (fs : FS),
    files.Nodup →
    (∀ f ∈ files, regOk f = true) →
    (∀ f ∈ files, mkTorrentName f ∉ fs.entries) →
    (addTorrents regOk fs files).handles = files ∧
    (addTorrents regOk fs files).created = files.length ∧
    (addTorrents regOk fs files).fs.entries
      = fs.entries ++ files.map mkTorrentName ∧
    (addTorrents regOk fs files).fs.contentDirExists
      = fs.contentDirExists := by
  intro files
  induction files with
  | nil => intro fs _ _ _; simp [addTorrents]
  | cons f rest ih =>
    intro fs hnd hreg hfresh
    have hf : regOk f = true := hreg f (List.mem_cons_self f rest)
    have hnotmem : mkTorrentName f ∉ fs.entries :=
      hfresh f (List.mem_cons_self f rest)
    have hcreate : createTorrent fs f =
        ⟨mkTorrentName f,
          { fs with entries := fs.entries ++ [mkTorrentName f] }, true⟩ := by
      simp [createTorrent, hnotmem]
    have hfresh' : ∀ g ∈ rest,
        mkTorrentName g ∉ fs.entries ++ [mkTorrentName f] := by
      intro g hg hmem
      rcases List.mem_append.mp hmem with hin | hin
      · exact hfresh g (List.mem_cons_of_mem f hg) hin
      · have : mkTorrentName g = mkTorrentName f := by simpa using hin
        have : g = f := mkTorrentName_injective this
        exact (List.nodup_cons.mp hnd).1 (this ▸ hg)
    have ihres := ih { fs with entries := fs.entries ++ [mkTorrentName f] }
      (List.nodup_cons.mp hnd).2
      (fun g hg => hreg g (List.mem_cons_of_mem f hg)) hfresh'
    have hstep : addTorrents regOk fs (f :: rest)
        = ⟨(addTorrents regOk
              { fs with entries := fs.entries ++ [mkTorrentName f] } rest).fs,
           f :: (addTorrents regOk
              { fs with entries := fs.entries ++ [mkTorrentName f] }
              rest).handles,
           1 + (addTorrents regOk
              { fs with entries := fs.entries ++ [mkTorrentName f] }
              rest).created⟩ := by
      simp [addTorrents, hcreate, hf]
    rw [hstep]
    refine ⟨by rw [ihres.1], by rw [ihres.2.1]; simp [Nat.add_comm], ?_,
      by rw [ihres.2.2.2]⟩
    rw [ihres.2.2.1]
    simp

end Seedbox

namespace Orchestrator

theorem step_exited {cfg oracle s} (h : s.exited.isSome = true) (e : Ev) :
    step cfg oracle s e = s := by
  simp [step, h]

theorem runEvs_exited {cfg oracle s} (h : s.exited.isSome = true)
    (evs : List Ev) : runEvs cfg oracle s evs = s := by
  induction evs with
  | nil => rfl
  | cons e tl ih => simp [runEvs, List.foldl_cons, step_exited h, runEvs] at ih ⊢; exact ih

/-- Once the stop flag is down, one step keeps it down and issues no
further poll and no further beat. -/
theorem step_stopped {cfg oracle s} (h : s.running = false) (e : Ev) :
    (step cfg oracle s e).running = false ∧
    (step cfg oracle s e).polls = s.polls ∧
    (step cfg oracle s e).beats = s.beats := by
  by_cases hex : s.exited.isSome
  · simp [step_exited hex, h]
  · cases e with
    | monStep =>
      cases hm : s.mon <;> simp [step, hex, hm, h]
    | hbStep =>
      cases hh : s.hb <;> simp [step, hex, hh, h]
    | seedStep =>
      cases hs : s.seed <;> simp [step, hex, hs, h]
    | tick => simp [step, hex, h]
    | signal => simp [step, hex]
    | seedDone => simp [step, hex, h]
    | shutdownStep =>
      cases hp : s.pendingExit with
      | none => simp [step, hex, hp, h]
      | some c =>
        by_cases hs : s.seed = TaskSt.done <;> simp [step, hex, hp, hs, h]

/-- Once the stop flag is down, no continuation issues a poll or a
beat. -/
theorem runEvs_stopped {cfg oracle s} (h : s.running = false)
    (evs : List Ev) :
    (runEvs cfg oracle s evs).running = false ∧
    (runEvs cfg oracle s evs).polls = s.polls ∧
    (runEvs cfg oracle s evs).beats = s.beats := by
  induction evs generalizing s with
  | nil => exact ⟨h, rfl, rfl⟩
  | cons e tl ih =>
    obtain ⟨h1, h2, h3⟩ := @step_stopped cfg oracle s h e
    obtain ⟨g1, g2, g3⟩ := ih h1
    exact ⟨g1, by rw [runEvs, List.foldl_cons] at *; rw [g2, h2], by
      rw [runEvs, List.foldl_cons] at *; rw [g3, h3]⟩

theorem step_tick {cfg oracle s} (h : s.exited = none) :
    step cfg oracle s .tick =
      { s with mon := tickTask s.mon, hb := tickTask s.hb,
               seed := tickTask s.seed } := by
  simp [step, h]

/-- A loop sleeping for `k + 1` ticks is back at its `while` test after
exactly `k + 1` ticks, with the flag, the exit status and every counter
untouched. -/
theorem ticks_wake_mon (cfg : Cfg) (oracle : Nat → PollOutcome) :
    ∀ (k : Nat) (s : Sys), s.exited = none → s.mon = .sleeping (k + 1) →
    (runEvs cfg oracle s (List.replicate (k + 1) .tick)).mon = .top ∧
    (runEvs cfg oracle s (List.replicate (k + 1) .tick)).polls = s.polls ∧
    (runEvs cfg oracle s (List.replicate (k + 1) .tick)).running = s.running ∧
    (runEvs cfg oracle s (List.replicate (k + 1) .tick)).exited = none ∧
    (runEvs cfg oracle s (List.replicate (k + 1) .tick)).syncErrorsLogged
      = s.syncErrorsLogged ∧
    (runEvs cfg oracle s (List.replicate (k + 1) .tick)).beats = s.beats := by
  intro k
  induction k with
  | zero =>
    intro s hex hm
    simp only [List.replicate, runEvs, List.foldl_cons, List.foldl_nil]
    rw [step_tick hex]
    simp [hm, tickTask, hex]
  | succ k ih =>
    intro s hex hm
    have hrep : List.replicate (k + 2) Ev.tick
        = Ev.tick :: List.replicate (k + 1) Ev.tick := rfl
    rw [hrep]
    have hstep : runEvs cfg oracle s (Ev.tick :: List.replicate (k + 1) .tick)
        = runEvs cfg oracle (step cfg oracle s .tick)
            (List.replicate (k + 1) .tick) := rfl
    rw [hstep, step_tick hex]
    have hm' : ({ s with mon := tickTask s.mon, hb := tickTask s.hb,
                         seed := tickTask s.seed } : Sys).mon
        = .sleeping (k + 1) := by
      simp [hm, tickTask]
    exact ih _ hex hm'

/-- One monitor iteration whose `CodeSync` interaction raises
`CodeSyncError`: the poll is counted, the error is logged, and the loop
moves into its configured sleep — it is not halted. -/
theorem monStep_syncErr {cfg oracle s} (hex : s.exited = none)
    (hrun : s.running = true) (hmon : s.mon = .top)
    (ho : (oracle s.polls).isSyncErr = true) :
    step cfg oracle s .monStep =
      { s with polls := s.polls + 1, mon := .sleeping cfg.updateInterval,
               syncErrorsLogged := s.syncErrorsLogged + 1 } := by
  cases h : oracle s.polls <;> rw [h] at ho <;>
    simp [PollOutcome.isSyncErr] at ho <;>
    simp [step, hex, hrun, hmon, h]

/-- Running `n` consecutive erroring monitor iterations from the
`while` test: `n` polls and `n` logged errors accumulate, the loop is
back at its test, and the flag, the exit status and the heartbeat count
are untouched. -/
theorem monCycles_syncErr (cfg : Cfg) (oracle : Nat → PollOutcome)
    (hI : 0 < cfg.updateInterval) :
    ∀ (n : Nat) (s : Sys), s.exited = none → s.running = true →
    s.mon = .top →
    (∀ i, i < n → (oracle (s.polls + i)).isSyncErr = true) →
    (runEvs cfg oracle s (monCycles cfg n)).polls = s.polls + n ∧
    (runEvs cfg oracle s (monCycles cfg n)).mon = .top ∧
    (runEvs cfg oracle s (monCycles cfg n)).running = true ∧
    (runEvs cfg oracle s (monCycles cfg n)).exited = none ∧
    (runEvs cfg oracle s (monCycles cfg n)).syncErrorsLogged
      = s.syncErrorsLogged + n ∧
    (runEvs cfg oracle s (monCycles cfg n)).beats = s.beats := by
  intro n
  induction n with
  | zero =>
    intro s hex hrun hmon _
    exact ⟨rfl, hmon, hrun, hex, rfl, rfl⟩
  | succ n ih =>
    intro s hex hrun hmon herr
    have h0 : (oracle s.polls).isSyncErr = true := by
      have := herr 0 (Nat.succ_pos n)
      simpa using this
    have hsplit : runEvs cfg oracle s (monCycles cfg (n + 1))
        = runEvs cfg oracle
            (runEvs cfg oracle s (monCycle cfg)) (monCycles cfg n) := by
      simp [monCycles, runEvs, List.foldl_append]
    have hcyc : runEvs cfg oracle s (monCycle cfg)
        = runEvs cfg oracle (step cfg oracle s .monStep)
            (List.replicate cfg.updateInterval .tick) := rfl
    set s1 := step cfg oracle s .monStep with hs1
    have hs1eq : s1 =
        { s with polls := s.polls + 1,
                 mon := .sleeping cfg.updateInterval,
                 syncErrorsLogged := s.syncErrorsLogged + 1 } := by
      rw [hs1, monStep_syncErr hex hrun hmon h0]
    obtain ⟨k, hk⟩ : ∃ k, cfg.updateInterval = k + 1 :=
      ⟨cfg.updateInterval - 1, (Nat.succ_pred_eq_of_pos hI).symm⟩
    have hwake := ticks_wake_mon cfg oracle k s1
      (by rw [hs1eq]; exact hex) (by rw [hs1eq]; simp [hk])
    set s2 := runEvs cfg oracle s1 (List.replicate (k + 1) .tick) with hs2
    have hs2polls : s2.polls = s.polls + 1 := by
      rw [hwake.2.1, hs1eq]
    have hs2run : s2.running = true := by rw [hwake.2.2.1, hs1eq]; exact hrun
    have hs2err : s2.syncErrorsLogged = s.syncErrorsLogged + 1 := by
      rw [hwake.2.2.2.2.1, hs1eq]
    have hs2beats : s2.beats = s.beats := by rw [hwake.2.2.2.2.2, hs1eq]
    have herr' : ∀ i, i < n → (oracle (s2.polls + i)).isSyncErr = true := by
      intro i hi
      rw [hs2polls]
      have := herr (i + 1) (Nat.succ_lt_succ hi)
      have harith : s.polls + 1 + i = s.polls + (i + 1) := by omega
      rw [harith]
      exact this
    have ihres := ih s2 hwake.2.2.2.1 hs2run hwake.1 herr'
    have hfinal : runEvs cfg oracle s (monCycles cfg (n + 1))
        = runEvs cfg oracle s2 (monCycles cfg n) := by
      rw [hsplit, hcyc, hk, ← hs2]
    rw [hfinal]
    refine ⟨?_, ihres.2.1, ihres.2.2.1, ihres.2.2.2.1, ?_, ?_⟩
    · rw [ihres.1, hs2polls]; omega
    · rw [ihres.2.2.2.2.1, hs2err]; omega
    · rw [ihres.2.2.2.2.2, hs2beats]

theorem tickTask_ne_done {t : TaskSt} (h : t ≠ .done) :
    tickTask t ≠ .done := by
  cases t with
  | top => simp [tickTask]
  | sleeping r => by_cases hr : r ≤ 1 <;> simp [tickTask, hr]
  | done => exact absurd rfl h

/-- Frame facts for one step of a state where the monitor coroutine has
terminated (it raised), the process has not exited, and the worker has
not finished: any event other than the worker finishing keeps the
process unexited, freezes the poll count, keeps the monitor terminated
and keeps the worker unfinished.  In particular `shutdownStep` only
cancels the cooperative tasks; its `executor.shutdown(wait=True)` join
cannot return while the worker loop runs. -/
theorem step_unwind_blocked {cfg oracle s} (hex : s.exited = none)
    (hmon : s.mon = TaskSt.done) (hseed : s.seed ≠ TaskSt.done) (e : Ev)
    (hne : e ≠ .seedDone) :
    (step cfg oracle s e).exited = none ∧
    (step cfg oracle s e).polls = s.polls ∧
    (step cfg oracle s e).mon = TaskSt.done ∧
    (step cfg oracle s e).seed ≠ TaskSt.done := by
  cases e with
  | monStep =>
    have h1 : step cfg oracle s .monStep = s := by simp [step, hex, hmon]
    rw [h1]
    exact ⟨hex, rfl, hmon, hseed⟩
  | hbStep =>
    cases hh : s.hb with
    | top =>
      cases hr : s.running with
      | true =>
        have h1 : step cfg oracle s .hbStep
            = { s with beats := s.beats + 1,
                       hb := .sleeping cfg.heartbeatInterval } := by
          simp [step, hex, hh, hr]
        rw [h1]
        exact ⟨hex, rfl, hmon, hseed⟩
      | false =>
        have h1 : step cfg oracle s .hbStep = { s with hb := .done } := by
          simp [step, hex, hh, hr]
        rw [h1]
        exact ⟨hex, rfl, hmon, hseed⟩
    | sleeping r =>
      have h1 : step cfg oracle s .hbStep = s := by simp [step, hex, hh]
      rw [h1]
      exact ⟨hex, rfl, hmon, hseed⟩
    | done =>
      have h1 : step cfg oracle s .hbStep = s := by simp [step, hex, hh]
      rw [h1]
      exact ⟨hex, rfl, hmon, hseed⟩
  | seedStep =>
    cases hs : s.seed with
    | top =>
      have h1 : step cfg oracle s .seedStep
          = { s with statusTicks := s.statusTicks + 1,
                     seed := .sleeping cfg.statusInterval } := by
        simp [step, hex, hs]
      rw [h1]
      exact ⟨hex, rfl, hmon, by simp⟩
    | sleeping r =>
      have h1 : step cfg oracle s .seedStep = s := by simp [step, hex, hs]
      rw [h1]
      exact ⟨hex, rfl, hmon, hseed⟩
    | done =>
      have h1 : step cfg oracle s .seedStep = s := by simp [step, hex, hs]
      rw [h1]
      exact ⟨hex, rfl, hmon, hseed⟩
  | tick =>
    rw [step_tick hex]
    exact ⟨hex, rfl, by simp [hmon, tickTask], tickTask_ne_done hseed⟩
  | signal =>
    have h1 : step cfg oracle s .signal = { s with running := false } := by
      simp [step, hex]
    rw [h1]
    exact ⟨hex, rfl, hmon, hseed⟩
  | seedDone => exact absurd rfl hne
  | shutdownStep =>
    cases hp : s.pendingExit with
    | none =>
      have h1 : step cfg oracle s .shutdownStep = s := by
        simp [step, hex, hp]
      rw [h1]
      exact ⟨hex, rfl, hmon, hseed⟩
    | some c =>
      have h1 : step cfg oracle s .shutdownStep
          = { s with mon := .done, hb := .done } := by
        simp [step, hex, hp, hseed]
      rw [h1]
      exact ⟨hex, rfl, rfl, hseed⟩

/-- While the monitor coroutine has terminated, the worker has not
finished and no event finishes it, any event sequence leaves the
process unexited with the poll count frozen: the shutdown join blocks
on the worker indefinitely. -/
theorem runEvs_unwind_blocked (cfg : Cfg) (oracle : Nat → PollOutcome) :
    ∀ (evs : List Ev) (s : Sys), s.exited = none →
    s.mon = TaskSt.done → s.seed ≠ TaskSt.done → Ev.seedDone ∉ evs →
    (runEvs cfg oracle s evs).exited = none ∧
    (runEvs cfg oracle s evs).polls = s.polls ∧
    (runEvs cfg oracle s evs).mon = TaskSt.done ∧
    (runEvs cfg oracle s evs).seed ≠ TaskSt.done := by
  intro evs
  induction evs with
  | nil =>
    intro s hex hmon hseed _
    exact ⟨hex, rfl, hmon, hseed⟩
  | cons e tl ih =>
    intro s hex hmon hseed hno
    have hne : e ≠ Ev.seedDone := by
      intro he
      exact hno (by rw [he]; exact List.mem_cons_self _ _)
    have hs := @step_unwind_blocked cfg oracle s hex hmon hseed e hne
    have htl : Ev.seedDone ∉ tl := fun h => hno (List.mem_cons_of_mem _ h)
    have ihr := ih (step cfg oracle s e) hs.1 hs.2.2.1 hs.2.2.2 htl
    have hr : runEvs cfg oracle s (e :: tl)
        = runEvs cfg oracle (step cfg oracle s e) tl := rfl
    exact ⟨by rw [hr]; exact ihr.1, by rw [hr, ihr.2.1, hs.2.1],
      by rw [hr]; exact ihr.2.2.1, by rw [hr]; exact ihr.2.2.2⟩

end Orchestrator

/-! ### Claim theorems -/

/-- C7: metadata-file synthesis is idempotent and deterministic — when
the companion `.torrent` file already exists `_create_torrent` returns
its path without regenerating or overwriting it (the filesystem is
untouched), and for any starting state a second call on the same file
returns the same path as the first and changes nothing. -/
theorem createTorrent_idempotent (fs : Seedbox.FS) (file : Name) :
    (mkTorrentName file ∈ fs.entries →
      Seedbox.createTorrent fs file = ⟨mkTorrentName file, fs, false⟩) ∧
    Seedbox.createTorrent (Seedbox.createTorrent fs file).fs file
      = ⟨(Seedbox.createTorrent fs file).path,
         (Seedbox.createTorrent fs file).fs, false⟩ := by
  constructor
  · intro h
    simp [Seedbox.createTorrent, h]
  · by_cases h : mkTorrentName file ∈ fs.entries
    · simp [Seedbox.createTorrent, h]
    · have h1 : Seedbox.createTorrent fs file
          = ⟨mkTorrentName file,
             { fs with entries := fs.entries ++ [mkTorrentName file] },
             true⟩ := by
        simp [Seedbox.createTorrent, h]
      rw [h1]
      simp [Seedbox.createTorrent]

/-- C7 witness: evaluated where the companion of `"alpha"` already
exists. -/
theorem createTorrent_idempotent_witness :
    Seedbox.createTorrent Seedbox.fsPaired "alpha".toList
      = ⟨mkTorrentName "alpha".toList, Seedbox.fsPaired, false⟩ ∧
    Seedbox.createTorrent
        (Seedbox.createTorrent Seedbox.fsPaired "alpha".toList).fs
        "alpha".toList
      = ⟨(Seedbox.createTorrent Seedbox.fsPaired "alpha".toList).path,
         (Seedbox.createTorrent Seedbox.fsPaired "alpha".toList).fs,
         false⟩ :=
  ⟨(createTorrent_idempotent Seedbox.fsPaired "alpha".toList).1 (by decide),
   (createTorrent_idempotent Seedbox.fsPaired "alpha".toList).2⟩

/-- C9 counterexample: the eligible set is NOT exactly "top-level
entries whose names do not end in `.torrent`": a directory whose only
entry is the hidden name `".hidden"` has an empty eligible set under the
code (glob skips dotfiles), while the claim's set contains
`".hidden"`. -/
theorem eligible_excludes_hidden_cex :
    Seedbox.eligibleFiles Seedbox.fsHidden
      ≠ Seedbox.specEligibleFiles Seedbox.fsHidden := by decide

/-- C9 (amended): the eligible content files are exactly the non-hidden
top-level entries (name not starting with a dot) whose names do not end
in `.torrent`; in particular metadata files are always excluded, so a
synthesized metadata file is never itself eligible on a later run. -/
theorem eligible_files_characterization (fs : Seedbox.FS) (n : Name) :
    (n ∈ Seedbox.eligibleFiles fs ↔
      n ∈ fs.entries ∧ isHidden n = false ∧ endsWithTorrent n = false) ∧
    ∀ f : Name, mkTorrentName f ∉ Seedbox.eligibleFiles fs := by
  refine ⟨Seedbox.mem_eligibleFiles, ?_⟩
  intro f hf
  have h := (Seedbox.mem_eligibleFiles.mp hf).2.2
  simp [endsWithTorrent_mkTorrentName] at h

/-- C10: a `KeyboardInterrupt` delivered inside the seeding session
loop is swallowed — `seed_content` returns normally, raising nothing —
while any other exception raised there is re-raised wrapped as
`SeedboxError("Seeding failed: ...")`. -/
theorem keyboard_interrupt_swallowed (regOk : Name → Bool)
    (hstat : Name → Nat × Nat) (fs : Seedbox.FS)
    (h : (Seedbox.seedContent regOk .keyboardInterrupt hstat
            fs).reachedLoop = true) :
    (Seedbox.seedContent regOk .keyboardInterrupt hstat fs).raised
        = none ∧
    ∀ m, (Seedbox.seedContent regOk (.exc m) hstat fs).raised
        = some (Seedbox.wrapMsg m) := by
  cases hl : Seedbox.loadContentFiles fs with
  | error m0 =>
    simp [Seedbox.seedContent, hl] at h
  | ok files =>
    by_cases he : (Seedbox.addTorrents regOk fs files).handles.isEmpty
    · simp [Seedbox.seedContent, hl, he] at h
    · simp only [Bool.not_eq_true] at he
      constructor
      · simp [Seedbox.seedContent, hl, he]
      · intro m
        simp [Seedbox.seedContent, hl, he]

/-- C10 witness: evaluated on a directory with one eligible file where
every registration succeeds, so the loop is reached. -/
theorem keyboard_interrupt_swallowed_witness :
    (Seedbox.seedContent Seedbox.regAll .keyboardInterrupt Seedbox.hstat0
        Seedbox.fsThree).raised = none ∧
    (Seedbox.seedContent Seedbox.regAll (.exc "boom".toList) Seedbox.hstat0
        Seedbox.fsThree).raised
      = some (Seedbox.wrapMsg "boom".toList) :=
  ⟨(keyboard_interrupt_swallowed Seedbox.regAll Seedbox.hstat0
      Seedbox.fsThree (by decide)).1,
   (keyboard_interrupt_swallowed Seedbox.regAll Seedbox.hstat0
      Seedbox.fsThree (by decide)).2 "boom".toList⟩

/-- C2 counterexample: with the content directory missing,
`seed_content` fails with the `SeedboxError` — but the network session
has ALREADY been initialized and bound at that point, because
`_initialize_session()` (seedbox.py line 165) runs before
`_load_content_files()` (line 166).  This refutes "fails ... before any
network session is opened". -/
theorem missing_dir_session_open_cex :
    (Seedbox.seedContent Seedbox.regAll .keyboardInterrupt Seedbox.hstat0
        Seedbox.fsMissing).raised.isSome = true ∧
    (Seedbox.seedContent Seedbox.regAll .keyboardInterrupt Seedbox.hstat0
        Seedbox.fsMissing).sessionInitialized = true := by decide

/-- C2 (amended): in every run where the content directory does not
exist, session setup fails with the declared `SeedboxError`, no item is
registered and the status loop is never entered — but only AFTER the
network session has been initialized and bound (the code opens the
session before checking the directory) — and the bridge logs the
failure and completes without re-raising it into the supervisor. -/
theorem missing_dir_fails_logged_not_reraised (regOk : Name → Bool)
    (loopExc : Seedbox.LoopExc) (hstat : Name → Nat × Nat)
    (fs : Seedbox.FS) (h : fs.contentDirExists = false) :
    (Seedbox.seedContent regOk loopExc hstat fs).raised
      = some (Seedbox.wrapMsg "Content directory not found".toList) ∧
    (Seedbox.seedContent regOk loopExc hstat fs).sessionInitialized
      = true ∧
    (Seedbox.seedContent regOk loopExc hstat fs).handles = [] ∧
    (Seedbox.seedContent regOk loopExc hstat fs).reachedLoop = false ∧
    (Seedbox.runSeedbox
        (Seedbox.seedContent regOk loopExc hstat fs)).raisedToSupervisor
      = false ∧
    (Seedbox.runSeedbox
        (Seedbox.seedContent regOk loopExc hstat fs)).loggedMsg
      = some (Seedbox.wrapMsg "Content directory not found".toList) := by
  have hl : Seedbox.loadContentFiles fs
      = .error "Content directory not found".toList := by
    simp [Seedbox.loadContentFiles, h]
  simp [Seedbox.seedContent, hl, Seedbox.runSeedbox]

/-- C2 witness: evaluated at the missing-directory state. -/
theorem missing_dir_fails_logged_not_reraised_witness :
    Seedbox.fsMissing.contentDirExists = false ∧
    (Seedbox.seedContent Seedbox.regAll Seedbox.LoopExc.keyboardInterrupt
        Seedbox.hstat0 Seedbox.fsMissing).raised
      = some (Seedbox.wrapMsg "Content directory not found".toList) ∧
    (Seedbox.runSeedbox
        (Seedbox.seedContent Seedbox.regAll
          Seedbox.LoopExc.keyboardInterrupt Seedbox.hstat0
          Seedbox.fsMissing)).raisedToSupervisor = false :=
  ⟨by decide,
   (missing_dir_fails_logged_not_reraised Seedbox.regAll
      Seedbox.LoopExc.keyboardInterrupt Seedbox.hstat0 Seedbox.fsMissing
      (by decide)).1,
   (missing_dir_fails_logged_not_reraised Seedbox.regAll
      Seedbox.LoopExc.keyboardInterrupt Seedbox.hstat0 Seedbox.fsMissing
      (by decide)).2.2.2.2.1⟩

/-- C6: every declared setup failure — missing content directory, no
eligible files, or zero items registered successfully — surfaces as the
declared `SeedboxError` before the forever status loop is entered, is
logged by the bridge without re-raising, and ends only the bridge task:
the supervisor-side transition for bridge completion leaves the process
unexited, the flag unchanged, and the monitor and heartbeat exactly as
they were. -/
theorem setup_failure_only_ends_bridge (regOk : Name → Bool)
    (loopExc : Seedbox.LoopExc) (hstat : Name → Nat × Nat)
    (fs : Seedbox.FS)
    (h : fs.contentDirExists = false ∨ Seedbox.eligibleFiles fs = [] ∨
         ∀ f ∈ Seedbox.eligibleFiles fs, regOk f = false) :
    (Seedbox.seedContent regOk loopExc hstat fs).raised.isSome = true ∧
    (Seedbox.seedContent regOk loopExc hstat fs).reachedLoop = false ∧
    (Seedbox.seedContent regOk loopExc hstat fs).firstStatus = none ∧
    (Seedbox.runSeedbox
        (Seedbox.seedContent regOk loopExc hstat fs)).raisedToSupervisor
      = false ∧
    (Seedbox.runSeedbox
        (Seedbox.seedContent regOk loopExc hstat fs)).loggedMsg
      = (Seedbox.seedContent regOk loopExc hstat fs).raised ∧
    ∀ (cfg : Orchestrator.Cfg) (oracle : Nat → Orchestrator.PollOutcome)
      (s : Orchestrator.Sys), s.exited = none →
      (Orchestrator.step cfg oracle s .seedDone).exited = none ∧
      (Orchestrator.step cfg oracle s .seedDone).running = s.running ∧
      (Orchestrator.step cfg oracle s .seedDone).mon = s.mon ∧
      (Orchestrator.step cfg oracle s .seedDone).hb = s.hb ∧
      (Orchestrator.step cfg oracle s .seedDone).seed
        = Orchestrator.TaskSt.done := by
  have hcore :
      (Seedbox.seedContent regOk loopExc hstat fs).raised.isSome = true ∧
      (Seedbox.seedContent regOk loopExc hstat fs).reachedLoop = false ∧
      (Seedbox.seedContent regOk loopExc hstat fs).firstStatus = none := by
    rcases h with h | h | h
    · have hl : Seedbox.loadContentFiles fs
          = .error "Content directory not found".toList := by
        simp [Seedbox.loadContentFiles, h]
      simp [Seedbox.seedContent, hl]
    · by_cases hd : fs.contentDirExists = false
      · have hl : Seedbox.loadContentFiles fs
            = .error "Content directory not found".toList := by
          simp [Seedbox.loadContentFiles, hd]
        simp [Seedbox.seedContent, hl]
      · have hl : Seedbox.loadContentFiles fs
            = .error "No files found".toList := by
          simp [Seedbox.loadContentFiles, hd, h]
        simp [Seedbox.seedContent, hl]
    · by_cases hd : fs.contentDirExists = false
      · have hl : Seedbox.loadContentFiles fs
            = .error "Content directory not found".toList := by
          simp [Seedbox.loadContentFiles, hd]
        simp [Seedbox.seedContent, hl]
      · by_cases hempty : Seedbox.eligibleFiles fs = []
        · have hl : Seedbox.loadContentFiles fs
              = .error "No files found".toList := by
            simp [Seedbox.loadContentFiles, hd, hempty]
          simp [Seedbox.seedContent, hl]
        · have hl : Seedbox.loadContentFiles fs
              = .ok (Seedbox.eligibleFiles fs) := by
            simp [Seedbox.loadContentFiles, hd, hempty]
          have hh : (Seedbox.addTorrents regOk fs
              (Seedbox.eligibleFiles fs)).handles = [] :=
            Seedbox.addTorrents_all_fail (Seedbox.eligibleFiles fs) fs h
          simp [Seedbox.seedContent, hl, hh]
  refine ⟨hcore.1, hcore.2.1, hcore.2.2, rfl, rfl, ?_⟩
  intro cfg oracle s hex
  refine ⟨?_, ?_, ?_, ?_, ?_⟩ <;> simp [Orchestrator.step, hex]

/-- C6 witness: evaluated at an existing but empty content directory,
with the supervisor-side part instantiated at the initial state. -/
theorem setup_failure_only_ends_bridge_witness :
    (Seedbox.seedContent Seedbox.regAll Seedbox.LoopExc.keyboardInterrupt
        Seedbox.hstat0 Seedbox.fsEmpty).raised.isSome = true ∧
    (Seedbox.seedContent Seedbox.regAll Seedbox.LoopExc.keyboardInterrupt
        Seedbox.hstat0 Seedbox.fsEmpty).reachedLoop = false ∧
    (Orchestrator.step Orchestrator.cfgW Orchestrator.oracleNo
        Orchestrator.initSys .seedDone).hb = Orchestrator.initSys.hb ∧
    (Orchestrator.step Orchestrator.cfgW Orchestrator.oracleNo
        Orchestrator.initSys .seedDone).exited = none := by
  have t := setup_failure_only_ends_bridge Seedbox.regAll
    Seedbox.LoopExc.keyboardInterrupt Seedbox.hstat0 Seedbox.fsEmpty
    (Or.inr (Or.inl (by decide)))
  have u := t.2.2.2.2.2 Orchestrator.cfgW Orchestrator.oracleNo
    Orchestrator.initSys rfl
  exact ⟨t.1, t.2.1, u.2.2.2.1, u.1⟩

/-- C8: for every content directory with exactly 3 eligible content
files and no pre-existing metadata files, when every per-item
registration succeeds, setup generates exactly 3 metadata files (and the
directory then holds exactly 3 names ending in `.torrent`), registers
exactly 3 items, reaches the status loop, and the first status snapshot
is active with an item count of 3. -/
theorem three_files_scenario (regOk : Name → Bool)
    (loopExc : Seedbox.LoopExc) (hstat : Name → Nat × Nat)
    (fs : Seedbox.FS)
    (hdir : fs.contentDirExists = true)
    (hnd : fs.entries.Nodup)
    (hlen : (Seedbox.eligibleFiles fs).length = 3)
    (hmeta : ∀ n ∈ fs.entries, endsWithTorrent n = false)
    (hreg : ∀ f ∈ Seedbox.eligibleFiles fs, regOk f = true) :
    (Seedbox.seedContent regOk loopExc hstat fs).created = 3 ∧
    (Seedbox.seedContent regOk loopExc hstat fs).handles.length = 3 ∧
    ((Seedbox.seedContent regOk loopExc hstat fs).fs.entries.countP
        (fun n => endsWithTorrent n)) = 3 ∧
    (Seedbox.seedContent regOk loopExc hstat fs).reachedLoop = true ∧
    (Seedbox.seedContent regOk loopExc hstat fs).firstStatus
      = some (Seedbox.getStatus hstat
          (Seedbox.seedContent regOk loopExc hstat fs).handles) ∧
    (Seedbox.getStatus hstat
        (Seedbox.seedContent regOk loopExc hstat fs).handles).active
      = true ∧
    (Seedbox.getStatus hstat
        (Seedbox.seedContent regOk loopExc hstat fs).handles).torrents
      = 3 := by
  have hne : Seedbox.eligibleFiles fs ≠ [] := by
    intro h0
    rw [h0] at hlen
    simp at hlen
  have hl : Seedbox.loadContentFiles fs
      = .ok (Seedbox.eligibleFiles fs) := by
    simp [Seedbox.loadContentFiles, hdir, hne]
  have hndf : (Seedbox.eligibleFiles fs).Nodup := by
    unfold Seedbox.eligibleFiles Seedbox.globStar
    exact (hnd.filter _).filter _
  have hfresh : ∀ f ∈ Seedbox.eligibleFiles fs,
      mkTorrentName f ∉ fs.entries := by
    intro f _ hmem
    have := hmeta _ hmem
    simp [endsWithTorrent_mkTorrentName] at this
  have hadd := Seedbox.addTorrents_all_ok (Seedbox.eligibleFiles fs) fs
    hndf hreg hfresh
  have hhlen : (Seedbox.addTorrents regOk fs
      (Seedbox.eligibleFiles fs)).handles.length = 3 := by
    rw [hadd.1]
    exact hlen
  have hnotempty : (Seedbox.addTorrents regOk fs
      (Seedbox.eligibleFiles fs)).handles.isEmpty = false := by
    rw [hadd.1]
    cases hf : Seedbox.eligibleFiles fs with
    | nil => exact absurd hf hne
    | cons a t => rfl
  have hcore :
      (Seedbox.seedContent regOk loopExc hstat fs).created
        = (Seedbox.addTorrents regOk fs
            (Seedbox.eligibleFiles fs)).created ∧
      (Seedbox.seedContent regOk loopExc hstat fs).handles
        = (Seedbox.addTorrents regOk fs
            (Seedbox.eligibleFiles fs)).handles ∧
      (Seedbox.seedContent regOk loopExc hstat fs).fs
        = (Seedbox.addTorrents regOk fs (Seedbox.eligibleFiles fs)).fs ∧
      (Seedbox.seedContent regOk loopExc hstat fs).reachedLoop = true ∧
      (Seedbox.seedContent regOk loopExc hstat fs).firstStatus
        = some (Seedbox.getStatus hstat
            (Seedbox.addTorrents regOk fs
              (Seedbox.eligibleFiles fs)).handles) := by
    cases loopExc <;> simp [Seedbox.seedContent, hl, hnotempty]
  have hcount : ((Seedbox.addTorrents regOk fs
      (Seedbox.eligibleFiles fs)).fs.entries.countP
        (fun n => endsWithTorrent n)) = 3 := by
    rw [hadd.2.2.1, List.countP_append]
    have hz : fs.entries.countP (fun n => endsWithTorrent n) = 0 := by
      rw [List.countP_eq_zero]
      intro a ha
      simp [hmeta a ha]
    have hfull : ((Seedbox.eligibleFiles fs).map mkTorrentName).countP
        (fun n => endsWithTorrent n)
        = ((Seedbox.eligibleFiles fs).map mkTorrentName).length := by
      rw [List.countP_eq_length]
      intro a ha
      obtain ⟨f, _, rfl⟩ := List.mem_map.mp ha
      simp [endsWithTorrent_mkTorrentName]
    rw [hz, hfull, List.length_map, hlen]
  refine ⟨?_, ?_, ?_, hcore.2.2.2.1, ?_, ?_, ?_⟩
  · rw [hcore.1, hadd.2.1, hlen]
  · rw [hcore.2.1, hhlen]
  · rw [hcore.2.2.1]
    exact hcount
  · rw [hcore.2.2.2.2, hcore.2.1]
  · rw [hcore.2.1]
    simp [Seedbox.getStatus, hnotempty]
  · rw [hcore.2.1]
    simp [Seedbox.getStatus, hnotempty, hhlen]

/-- C8 witness: evaluated at the concrete directory with the three
files `alpha`, `beta`, `gamma` and all registrations succeeding. -/
theorem three_files_scenario_witness :
    (Seedbox.seedContent Seedbox.regAll Seedbox.LoopExc.keyboardInterrupt
        Seedbox.hstat0 Seedbox.fsThree).created = 3 ∧
    (Seedbox.seedContent Seedbox.regAll Seedbox.LoopExc.keyboardInterrupt
        Seedbox.hstat0 Seedbox.fsThree).handles.length = 3 ∧
    (Seedbox.getStatus Seedbox.hstat0
        (Seedbox.seedContent Seedbox.regAll
          Seedbox.LoopExc.keyboardInterrupt Seedbox.hstat0
          Seedbox.fsThree).handles).torrents = 3 := by
  have t := three_files_scenario Seedbox.regAll
    Seedbox.LoopExc.keyboardInterrupt Seedbox.hstat0 Seedbox.fsThree
    (by decide) (by decide) (by decide) (by decide) (by decide)
  exact ⟨t.1, t.2.1, t.2.2.2.2.2.2⟩

/-- C1: the restart path does NOT exit directly.  A successful pull
raises `SystemExit(EXIT_RESTART)` (uncaught by `except CodeSyncError`),
which terminates the monitor — so no further poll ever occurs — but the
exception then unwinds through the cancellation/shutdown sequence: the
cleanup cancels the tasks and `run()`'s `finally` blocks without
timeout in `executor.shutdown(wait=True)` joining the worker thread.
As long as the worker's `while True` status loop has not finished
(which it never does on its own), the process does not exit at all —
while the worker can still take status iterations — and only if the
worker does finish does the join return and the process terminate, with
exactly the restart code. -/
theorem restart_exit_unwinds_and_blocks (cfg : Orchestrator.Cfg)
    (oracle : Nat → Orchestrator.PollOutcome) (s : Orchestrator.Sys)
    (hex : s.exited = none) (hrun : s.running = true)
    (hmon : s.mon = Orchestrator.TaskSt.top)
    (ho : oracle s.polls = Orchestrator.PollOutcome.updatePullOk) :
    (Orchestrator.step cfg oracle s .monStep).pendingExit
      = some cfg.exitRestart ∧
    (Orchestrator.step cfg oracle s .monStep).exited = none ∧
    (Orchestrator.step cfg oracle s .monStep).mon
      = Orchestrator.TaskSt.done ∧
    (Orchestrator.step cfg oracle s .monStep).polls = s.polls + 1 ∧
    (Orchestrator.step cfg oracle
        (Orchestrator.step cfg oracle s .monStep) .shutdownStep).mon
      = Orchestrator.TaskSt.done ∧
    (Orchestrator.step cfg oracle
        (Orchestrator.step cfg oracle s .monStep) .shutdownStep).hb
      = Orchestrator.TaskSt.done ∧
    (∀ evs, Orchestrator.Ev.seedDone ∉ evs →
      s.seed ≠ Orchestrator.TaskSt.done →
      (Orchestrator.runEvs cfg oracle
          (Orchestrator.step cfg oracle s .monStep) evs).exited = none ∧
      (Orchestrator.runEvs cfg oracle
          (Orchestrator.step cfg oracle s .monStep) evs).polls
        = s.polls + 1) ∧
    (s.seed = Orchestrator.TaskSt.done →
      (Orchestrator.step cfg oracle
          (Orchestrator.step cfg oracle s .monStep) .shutdownStep).exited
        = some cfg.exitRestart) := by
  have hstep : Orchestrator.step cfg oracle s .monStep
      = { s with polls := s.polls + 1, mon := .done,
                 pendingExit := some cfg.exitRestart } := by
    simp [Orchestrator.step, hex, hrun, hmon, ho]
  refine ⟨by rw [hstep], by rw [hstep]; exact hex, by rw [hstep],
    by rw [hstep], ?_, ?_, ?_, ?_⟩
  · rw [hstep]
    by_cases hs : s.seed = Orchestrator.TaskSt.done <;>
      simp [Orchestrator.step, hex, hs]
  · rw [hstep]
    by_cases hs : s.seed = Orchestrator.TaskSt.done <;>
      simp [Orchestrator.step, hex, hs]
  · intro evs hno hseed
    have h := Orchestrator.runEvs_unwind_blocked cfg oracle evs
      (Orchestrator.step cfg oracle s .monStep)
      (by rw [hstep]; exact hex) (by rw [hstep])
      (by rw [hstep]; exact hseed) hno
    refine ⟨h.1, ?_⟩
    rw [h.2.1, hstep]
  · intro hs
    rw [hstep]
    simp [Orchestrator.step, hex, hs]

/-- C1 witness: evaluated from the initial state (seeding worker alive
at its loop head) with an oracle whose first poll finds an update and
pulls successfully; the process has not exited after the unwind, the
cancellations, and further worker iterations. -/
theorem restart_exit_unwinds_and_blocks_witness :
    (Orchestrator.step Orchestrator.cfgW Orchestrator.oraclePull
        Orchestrator.initSys .monStep).pendingExit
      = some Orchestrator.cfgW.exitRestart ∧
    (Orchestrator.step Orchestrator.cfgW Orchestrator.oraclePull
        Orchestrator.initSys .monStep).exited = none ∧
    (Orchestrator.runEvs Orchestrator.cfgW Orchestrator.oraclePull
        (Orchestrator.step Orchestrator.cfgW Orchestrator.oraclePull
          Orchestrator.initSys .monStep)
        [.shutdownStep, .seedStep, .tick, .tick, .shutdownStep,
          .seedStep]).exited = none ∧
    (Orchestrator.runEvs Orchestrator.cfgW Orchestrator.oraclePull
        (Orchestrator.step Orchestrator.cfgW Orchestrator.oraclePull
          Orchestrator.initSys .monStep)
        [.shutdownStep, .seedStep, .tick, .tick, .shutdownStep,
          .seedStep]).polls = Orchestrator.initSys.polls + 1 := by
  have t := restart_exit_unwinds_and_blocks Orchestrator.cfgW
    Orchestrator.oraclePull Orchestrator.initSys rfl rfl rfl rfl
  have u := t.2.2.2.2.2.2.1
    [.shutdownStep, .seedStep, .tick, .tick, .shutdownStep, .seedStep]
    (by decide) (by decide)
  exact ⟨t.1, t.2.1, u.1, u.2⟩

/-- C3 counterexample: refutes "Supervisor proceeds to shutdown without
waiting out the remainder of the in-progress sleep".  Concretely: the
heartbeat beats once and starts its 5-tick sleep; the interrupt arrives
mid-sleep (`running` becomes false); four ticks later the emitter is
still mid-sleep, not completed; it completes — and the supervisor's
wait on it can end — only after the full remaining sleep has elapsed
and it re-reaches its `while` test.  (The zero-further-emissions part
holds: `beats` stays 1.) -/
theorem interrupt_mid_sleep_waits_cex :
    (Orchestrator.runEvs Orchestrator.cfgW Orchestrator.oracleNo
        Orchestrator.initSys [.hbStep, .signal]).running = false ∧
    (Orchestrator.runEvs Orchestrator.cfgW Orchestrator.oracleNo
        Orchestrator.initSys [.hbStep, .signal]).hb
      = Orchestrator.TaskSt.sleeping 5 ∧
    (Orchestrator.runEvs Orchestrator.cfgW Orchestrator.oracleNo
        Orchestrator.initSys
        [.hbStep, .signal, .tick, .tick, .tick, .tick]).hb
      = Orchestrator.TaskSt.sleeping 1 ∧
    (Orchestrator.runEvs Orchestrator.cfgW Orchestrator.oracleNo
        Orchestrator.initSys
        [.hbStep, .signal, .tick, .tick, .tick, .tick, .tick]).hb
      = Orchestrator.TaskSt.top ∧
    (Orchestrator.runEvs Orchestrator.cfgW Orchestrator.oracleNo
        Orchestrator.initSys
        [.hbStep, .signal, .tick, .tick, .tick, .tick, .tick, .hbStep]).hb
      = Orchestrator.TaskSt.done ∧
    (Orchestrator.runEvs Orchestrator.cfgW Orchestrator.oracleNo
        Orchestrator.initSys
        [.hbStep, .signal, .tick, .tick, .tick, .tick, .tick,
          .hbStep]).beats = 1 := by decide

/-- C3 (amended): an interrupt arriving while the heartbeat emitter is
mid-sleep makes `running` false and the emitter performs zero further
emissions — but the in-progress sleep is not cut short: the signal
handler only flips the flag, leaving the sleep's remaining ticks
unchanged, so the supervisor waits out the rest of the interval before
the emitter observes the flag and stops. -/
theorem interrupt_mid_sleep_stops_beats (cfg : Orchestrator.Cfg)
    (oracle : Nat → Orchestrator.PollOutcome) (s : Orchestrator.Sys)
    (r : Nat) (hex : s.exited = none)
    (hhb : s.hb = Orchestrator.TaskSt.sleeping r) :
    (Orchestrator.step cfg oracle s .signal).running = false ∧
    (Orchestrator.step cfg oracle s .signal).hb
      = Orchestrator.TaskSt.sleeping r ∧
    (Orchestrator.step cfg oracle s .signal).beats = s.beats ∧
    ∀ evs, (Orchestrator.runEvs cfg oracle
        (Orchestrator.step cfg oracle s .signal) evs).beats
      = s.beats := by
  have hstep : Orchestrator.step cfg oracle s .signal
      = { s with running := false } := by
    simp [Orchestrator.step, hex]
  refine ⟨by rw [hstep], by rw [hstep]; exact hhb, by rw [hstep], ?_⟩
  intro evs
  have h := @Orchestrator.runEvs_stopped cfg oracle
    (Orchestrator.step cfg oracle s .signal) (by rw [hstep]) evs
  rw [h.2.2, hstep]

/-- C3 witness: evaluated at the state after one beat, mid-sleep. -/
theorem interrupt_mid_sleep_stops_beats_witness :
    (Orchestrator.step Orchestrator.cfgW Orchestrator.oracleNo
        (Orchestrator.runEvs Orchestrator.cfgW Orchestrator.oracleNo
          Orchestrator.initSys [.hbStep]) .signal).running = false ∧
    (Orchestrator.step Orchestrator.cfgW Orchestrator.oracleNo
        (Orchestrator.runEvs Orchestrator.cfgW Orchestrator.oracleNo
          Orchestrator.initSys [.hbStep]) .signal).hb
      = Orchestrator.TaskSt.sleeping 5 ∧
    (Orchestrator.runEvs Orchestrator.cfgW Orchestrator.oracleNo
        (Orchestrator.step Orchestrator.cfgW Orchestrator.oracleNo
          (Orchestrator.runEvs Orchestrator.cfgW Orchestrator.oracleNo
            Orchestrator.initSys [.hbStep]) .signal)
        [.tick, .hbStep, .seedStep]).beats
      = (Orchestrator.runEvs Orchestrator.cfgW Orchestrator.oracleNo
          Orchestrator.initSys [.hbStep]).beats := by
  have t := interrupt_mid_sleep_stops_beats Orchestrator.cfgW
    Orchestrator.oracleNo
    (Orchestrator.runEvs Orchestrator.cfgW Orchestrator.oracleNo
      Orchestrator.initSys [.hbStep]) 5 (by decide) (by decide)
  exact ⟨t.1, t.2.1, t.2.2.2 _⟩

/-- C4: a `CodeSyncError` from either `CodeSync` call never halts the
monitor loop: over any run of `n` consecutive erroring iterations, at
each stage the loop is back at its `while` test, alive and unexited,
with one poll and one logged error per iteration; each failed iteration
is immediately followed by the configured poll-interval sleep; and
after the `n` consecutive errors the `(n+1)`-th poll attempt occurs, so
exactly `n + 1` polls have happened. -/
theorem sync_errors_never_halt_monitor (cfg : Orchestrator.Cfg)
    (oracle : Nat → Orchestrator.PollOutcome) (s : Orchestrator.Sys)
    (n : Nat) (hI : 0 < cfg.updateInterval) (hex : s.exited = none)
    (hrun : s.running = true)
    (hmon : s.mon = Orchestrator.TaskSt.top)
    (herr : ∀ i, i < n → (oracle (s.polls + i)).isSyncErr = true) :
    (∀ j, j ≤ n →
      (Orchestrator.runEvs cfg oracle s
          (Orchestrator.monCycles cfg j)).mon
        = Orchestrator.TaskSt.top ∧
      (Orchestrator.runEvs cfg oracle s
          (Orchestrator.monCycles cfg j)).running = true ∧
      (Orchestrator.runEvs cfg oracle s
          (Orchestrator.monCycles cfg j)).exited = none ∧
      (Orchestrator.runEvs cfg oracle s
          (Orchestrator.monCycles cfg j)).polls = s.polls + j ∧
      (Orchestrator.runEvs cfg oracle s
          (Orchestrator.monCycles cfg j)).syncErrorsLogged
        = s.syncErrorsLogged + j) ∧
    (∀ j, j < n →
      (Orchestrator.step cfg oracle
          (Orchestrator.runEvs cfg oracle s (Orchestrator.monCycles cfg j))
          .monStep).mon
        = Orchestrator.TaskSt.sleeping cfg.updateInterval) ∧
    (Orchestrator.runEvs cfg oracle s
        (Orchestrator.monCycles cfg n ++ [Orchestrator.Ev.monStep])).polls
      = s.polls + n + 1 := by
  have stage : ∀ j, j ≤ n →
      (Orchestrator.runEvs cfg oracle s
          (Orchestrator.monCycles cfg j)).mon
        = Orchestrator.TaskSt.top ∧
      (Orchestrator.runEvs cfg oracle s
          (Orchestrator.monCycles cfg j)).running = true ∧
      (Orchestrator.runEvs cfg oracle s
          (Orchestrator.monCycles cfg j)).exited = none ∧
      (Orchestrator.runEvs cfg oracle s
          (Orchestrator.monCycles cfg j)).polls = s.polls + j ∧
      (Orchestrator.runEvs cfg oracle s
          (Orchestrator.monCycles cfg j)).syncErrorsLogged
        = s.syncErrorsLogged + j := by
    intro j hj
    have h := Orchestrator.monCycles_syncErr cfg oracle hI j s hex hrun
      hmon (fun i hi => herr i (lt_of_lt_of_le hi hj))
    exact ⟨h.2.1, h.2.2.1, h.2.2.2.1, h.1, h.2.2.2.2.1⟩
  refine ⟨stage, ?_, ?_⟩
  · intro j hj
    obtain ⟨hm, hr, he, hp, _⟩ := stage j (le_of_lt hj)
    have ho : (oracle ((Orchestrator.runEvs cfg oracle s
        (Orchestrator.monCycles cfg j)).polls)).isSyncErr = true := by
      rw [hp]
      exact herr j hj
    rw [Orchestrator.monStep_syncErr he hr hm ho]
  · obtain ⟨hm, hr, he, hp, _⟩ := stage n le_rfl
    have hsplit : Orchestrator.runEvs cfg oracle s
        (Orchestrator.monCycles cfg n ++ [Orchestrator.Ev.monStep])
        = Orchestrator.step cfg oracle
            (Orchestrator.runEvs cfg oracle s
              (Orchestrator.monCycles cfg n)) .monStep := by
      simp [Orchestrator.runEvs, List.foldl_append]
    rw [hsplit]
    cases hoc : oracle (s.polls + n) <;>
      simp [Orchestrator.step, he, hr, hm, hp, hoc]

/-- C4 witness: evaluated with two consecutive erroring polls, from the
initial state. -/
theorem sync_errors_never_halt_monitor_witness :
    (Orchestrator.runEvs Orchestrator.cfgW Orchestrator.oracleErr2
        Orchestrator.initSys
        (Orchestrator.monCycles Orchestrator.cfgW 2
          ++ [Orchestrator.Ev.monStep])).polls
      = Orchestrator.initSys.polls + 2 + 1 ∧
    (Orchestrator.runEvs Orchestrator.cfgW Orchestrator.oracleErr2
        Orchestrator.initSys
        (Orchestrator.monCycles Orchestrator.cfgW 2)).syncErrorsLogged
      = Orchestrator.initSys.syncErrorsLogged + 2 := by
  have t := sync_errors_never_halt_monitor Orchestrator.cfgW
    Orchestrator.oracleErr2 Orchestrator.initSys 2 (by decide) rfl rfl rfl
    (by decide)
  exact ⟨t.2.2, (t.1 2 le_rfl).2.2.2.2⟩

/-- C5 counterexample: refutes "no task begins a new loop iteration ...
including the status loop run on the worker context": concretely, after
the signal has made `running` false, a scheduling of the worker's
status loop still begins a new iteration — the status counter
increments and the loop re-enters its sleep — because the `while True`
loop of `seed_content` never reads the flag. -/
theorem status_loop_ignores_stop_cex :
    (Orchestrator.runEvs Orchestrator.cfgW Orchestrator.oracleNo
        Orchestrator.initSys [.signal]).running = false ∧
    (Orchestrator.step Orchestrator.cfgW Orchestrator.oracleNo
        (Orchestrator.runEvs Orchestrator.cfgW Orchestrator.oracleNo
          Orchestrator.initSys [.signal]) .seedStep).statusTicks
      = (Orchestrator.runEvs Orchestrator.cfgW Orchestrator.oracleNo
          Orchestrator.initSys [.signal]).statusTicks + 1 ∧
    (Orchestrator.step Orchestrator.cfgW Orchestrator.oracleNo
        (Orchestrator.runEvs Orchestrator.cfgW Orchestrator.oracleNo
          Orchestrator.initSys [.signal]) .seedStep).seed
      = Orchestrator.TaskSt.sleeping Orchestrator.cfgW.statusInterval :=
  by decide

/-- C5 (amended): once `running` is false it stays false and the
monitor and the heartbeat begin no new loop iteration — no further
polls or emissions ever occur, and each loop's next `while` test ends
its task — but the invariant does not extend to the worker's status
loop, which never reads the flag and keeps beginning new iterations. -/
theorem stop_flag_halts_cooperative_loops (cfg : Orchestrator.Cfg)
    (oracle : Nat → Orchestrator.PollOutcome) (s : Orchestrator.Sys)
    (hrun : s.running = false) :
    (∀ evs, (Orchestrator.runEvs cfg oracle s evs).polls = s.polls ∧
            (Orchestrator.runEvs cfg oracle s evs).beats = s.beats ∧
            (Orchestrator.runEvs cfg oracle s evs).running = false) ∧
    (s.exited = none → s.mon = Orchestrator.TaskSt.top →
      (Orchestrator.step cfg oracle s .monStep).mon
        = Orchestrator.TaskSt.done) ∧
    (s.exited = none → s.hb = Orchestrator.TaskSt.top →
      (Orchestrator.step cfg oracle s .hbStep).hb
        = Orchestrator.TaskSt.done) ∧
    (s.exited = none → s.seed = Orchestrator.TaskSt.top →
      (Orchestrator.step cfg oracle s .seedStep).statusTicks
        = s.statusTicks + 1) := by
  refine ⟨fun evs => ?_, ?_, ?_, ?_⟩
  · have h := @Orchestrator.runEvs_stopped cfg oracle s hrun evs
    exact ⟨h.2.1, h.2.2, h.1⟩
  · intro hex hm
    simp [Orchestrator.step, hex, hm, hrun]
  · intro hex hh
    simp [Orchestrator.step, hex, hh, hrun]
  · intro hex hs
    simp [Orchestrator.step, hex, hs]

/-- C5 witness: evaluated right after the signal, with all three loops
at their loop heads. -/
theorem stop_flag_halts_cooperative_loops_witness :
    (Orchestrator.runEvs Orchestrator.cfgW Orchestrator.oracleNo
        (Orchestrator.runEvs Orchestrator.cfgW Orchestrator.oracleNo
          Orchestrator.initSys [.signal]) [.monStep, .hbStep]).polls
      = (Orchestrator.runEvs Orchestrator.cfgW Orchestrator.oracleNo
          Orchestrator.initSys [.signal]).polls ∧
    (Orchestrator.step Orchestrator.cfgW Orchestrator.oracleNo
        (Orchestrator.runEvs Orchestrator.cfgW Orchestrator.oracleNo
          Orchestrator.initSys [.signal]) .monStep).mon
      = Orchestrator.TaskSt.done ∧
    (Orchestrator.step Orchestrator.cfgW Orchestrator.oracleNo
        (Orchestrator.runEvs Orchestrator.cfgW Orchestrator.oracleNo
          Orchestrator.initSys [.signal]) .seedStep).statusTicks
      = (Orchestrator.runEvs Orchestrator.cfgW Orchestrator.oracleNo
          Orchestrator.initSys [.signal]).statusTicks + 1 := by
  have t := stop_flag_halts_cooperative_loops Orchestrator.cfgW
    Orchestrator.oracleNo
    (Orchestrator.runEvs Orchestrator.cfgW Orchestrator.oracleNo
      Orchestrator.initSys [.signal]) (by decide)
  exact ⟨(t.1 _).1, t.2.1 (by decide) (by decide),
    t.2.2.2 (by decide) (by decide)⟩

end Mycelium
